import Mathlib

/-!
Verification of the classroom seating allocation engine.

The model below is a shallow embedding of the two routes that implement the
engine:

* the auto-assignment route (hostel/list route POST handler): student
  resolution, duplicate check, position map construction, removal of the
  batch students' existing assignments, the greedy class-grouped solver,
  and the replace (delete + insert) persistence step;
* the manual-assignment route (room-allocation/create file, student
  assignment POST handler): structural validation, student resolution,
  position map construction (from all existing assignments), the per-tuple
  constraint check, and the replace persistence step;
* the room-allocation creation handler: field validation, bench-size
  coercion and the 200-seat capacity ceiling.

Machine integers are modelled as Int (JS numbers on the ranges used here);
the JS string key `row-column-benchPosition` is modelled by the integer
triple itself (the string encoding is injective on the triples that occur).
The JS Map is modelled as an association list with first-match lookup and
replace-or-append insertion, which matches Map get/set semantics.
Persistence is modelled by an explicit list of operations (delete by
student ids, bulk insert) emitted by a route, applied to the persisted row
list by applyOps.
-/

namespace Seating

/-- A seat key: the triple (row, column, benchPosition). Mirrors the string
key built by the routes. -/
abbrev Key := Int × Int × Int

/-- Occupant record stored in the position map: student id plus the
student's class id (null modelled as none). -/
structure Occ where
  studentId : String
  classId : Option String
deriving Repr, DecidableEq

/-- The request-scoped position map, modelling the JS Map from seat key to
occupant. -/
abbrev PosMap := List (Key × Occ)

/-- Map lookup (Map.get): first entry with the given key. -/
def pmFind (m : PosMap) (k : Key) : Option Occ :=
  (m.find? (fun e => e.1 == k)).map (fun e => e.2)

/-- Map membership test (Map.has). -/
def pmHas (m : PosMap) (k : Key) : Bool :=
  (pmFind m k).isSome

/-- Map insertion (Map.set): overwrite in place if the key is present,
otherwise append. -/
def pmSet (m : PosMap) (k : Key) (v : Occ) : PosMap :=
  if m.any (fun e => e.1 == k) then
    m.map (fun e => if e.1 == k then (k, v) else e)
  else m ++ [(k, v)]

/-- JS truthiness of a string-or-null class id: null and the empty string
are falsy. -/
def truthy : Option String → Bool
  | none => false
  | some s => s != ""

/-- The same-class test applied to an occupant record in both routes:
adj.classId === studentClassId, and adj.classId truthy. -/
def sameClassConflict (o : Occ) (cls : Option String) : Bool :=
  (o.classId == cls) && truthy o.classId

/-- Does the occupant at key k (if any) trigger the same-class test against
cls? Models the pattern: get the adjacent occupant and test it. -/
def occConflict (m : PosMap) (k : Key) (cls : Option String) : Bool :=
  match pmFind m k with
  | some adj => sameClassConflict adj cls
  | none => false

/-- Room allocation configuration as stored: name, dimensions and bench
capacity. -/
structure Config where
  roomName : String
  rows : Int
  columns : Int
  studentsPerBench : Int
deriving Repr, DecidableEq

/-- Availability predicate of the auto-assignment route
(isPositionAvailable): the seat must be free, and no adjacent seat (per the
bench-size-specific rule) may hold a same-class occupant. -/
def isPositionAvailable (cfg : Config) (m : PosMap)
    (row column benchPosition : Int) (cls : Option String) : Bool :=
  if pmHas m (row, column, benchPosition) then false
  else if cfg.studentsPerBench == 1 then
    !(occConflict m (row, column - 1, 1) cls ||
      occConflict m (row, column + 1, 1) cls ||
      occConflict m (row - 1, column, 1) cls ||
      occConflict m (row + 1, column, 1) cls)
  else
    if occConflict m (row, column, if benchPosition == 1 then 2 else 1) cls then
      false
    else if column > 1 &&
        (occConflict m (row, column - 1, 1) cls ||
         occConflict m (row, column - 1, 2) cls) then
      false
    else if column < cfg.columns &&
        (occConflict m (row, column + 1, 1) cls ||
         occConflict m (row, column + 1, 2) cls) then
      false
    else true

/-- Error outcomes of the manual-assignment route, one per distinct error
response of the handler. -/
inductive MErr where
  | duplicateStudent (studentId : String)
  | invalidPosition (row column : Int)
  | invalidBenchPosition (benchPos : Int)
  | positionTaken (row column benchPos : Int)
  | someStudentsNotFound
  | adjacentSameClass1
  | sameBenchSameClass
  | sideBySideSameClass
deriving Repr, DecidableEq

/-- Constraint check run by the manual-assignment route for one tuple
against the current position map. It transcribes the per-assignment check
of the handler; note that, unlike isPositionAvailable, it has no test that
the target seat itself is free. -/
def manualConstraintCheck (cfg : Config) (m : PosMap)
    (row column benchPos : Int) (cls : Option String) : Option MErr :=
  if cfg.studentsPerBench == 1 then
    if occConflict m (row, column - 1, 1) cls ||
       occConflict m (row, column + 1, 1) cls ||
       occConflict m (row - 1, column, 1) cls ||
       occConflict m (row + 1, column, 1) cls then
      some .adjacentSameClass1
    else none
  else
    if occConflict m (row, column, if benchPos == 1 then 2 else 1) cls then
      some .sameBenchSameClass
    else if column > 1 &&
        (occConflict m (row, column - 1, 1) cls ||
         occConflict m (row, column - 1, 2) cls) then
      some .sideBySideSameClass
    else if column < cfg.columns &&
        (occConflict m (row, column + 1, 1) cls ||
         occConflict m (row, column + 1, 2) cls) then
      some .sideBySideSameClass
    else none

/-- A student row as the routes see it after resolution: id, user name
(possibly absent) and class id (possibly null). -/
structure Student where
  id : String
  name : Option String
  classId : Option String
deriving Repr, DecidableEq

/-- A persisted RoomStudentAssignment row, joined with the student's class
id the way both routes load it (include student.class). -/
structure AsgRow where
  studentId : String
  classId : Option String
  row : Int
  column : Int
  benchPosition : Int
deriving Repr, DecidableEq

/-- Build the position map from the loaded existing assignments, in load
order. -/
def buildMap (existing : List AsgRow) : PosMap :=
  existing.foldl
    (fun m e => pmSet m (e.row, e.column, e.benchPosition) ⟨e.studentId, e.classId⟩)
    []

/-- Walk the list keeping the first occurrence of each element not yet
seen; the accumulator is the set of elements already kept. -/
def jsDedupAux : List String → List String → List String
  | [], _ => []
  | x :: xs, seen =>
    if seen.contains x then jsDedupAux xs seen
    else x :: jsDedupAux xs (seen ++ [x])

/-- First-occurrence deduplication, modelling Array.from(new Set(xs)). -/
def jsDedup (l : List String) : List String :=
  jsDedupAux l []

/-- Student resolution (findMany with id in ids): the rows of the student
table whose id is in the requested list, in table order. -/
def resolveStudents (db : List Student) (ids : List String) : List Student :=
  db.filter (fun s => ids.contains s.id)

/-- Append a student to the bucket of its class id, creating the bucket at
the end on first encounter; models Map-of-lists insertion. -/
def groupInsert (groups : List (Option String × List Student))
    (cid : Option String) (s : Student) : List (Option String × List Student) :=
  match groups with
  | [] => [(cid, [s])]
  | (k, g) :: rest =>
    if k == cid then (k, g ++ [s]) :: rest
    else (k, g) :: groupInsert rest cid s

/-- Group students by class id, buckets in first-encountered order and
students kept in input order inside each bucket. -/
def groupByClass (students : List Student) : List (Option String × List Student) :=
  students.foldl (fun acc s => groupInsert acc s.classId s) []

/-- The integers 1, 2, ..., n (empty when n is not positive); the index
range of the scan loops. -/
def intRange1 (n : Int) : List Int :=
  (List.range n.toNat).map (fun i => (i : Int) + 1)

/-- All seat keys of the grid in scan order: row outer, column middle,
bench position inner, each ascending from 1. -/
def allCoords (cfg : Config) : List Key :=
  (intRange1 cfg.rows).flatMap (fun r =>
    (intRange1 cfg.columns).flatMap (fun c =>
      (intRange1 cfg.studentsPerBench).map (fun b => (r, c, b))))

/-- One tentative placement recorded by the solver. -/
structure Asg where
  studentId : String
  row : Int
  column : Int
  benchPosition : Int
deriving Repr, DecidableEq

/-- Solver state: the mutable position map, the placements made so far and
the students that could not be placed. -/
structure SolveState where
  m : PosMap
  assignments : List Asg
  unassigned : List Student
deriving Repr

/-- Place one student at the first available seat in scan order, marking
the seat taken immediately; students with no available seat are added to
the unassigned list. -/
def assignOne (cfg : Config) (st : SolveState) (s : Student) : SolveState :=
  match (allCoords cfg).find?
      (fun k => isPositionAvailable cfg st.m k.1 k.2.1 k.2.2 s.classId) with
  | some (r, c, b) =>
    { st with
      m := pmSet st.m (r, c, b) ⟨s.id, s.classId⟩,
      assignments := st.assignments ++ [⟨s.id, r, c, b⟩] }
  | none => { st with unassigned := st.unassigned ++ [s] }

/-- The greedy solver: iterate the class groups in first-encountered order
and the students of each group in input order, placing each at the first
available seat. -/
def solve (cfg : Config) (m : PosMap) (students : List Student) : SolveState :=
  ((groupByClass students).flatMap (fun g => g.2)).foldl (assignOne cfg) ⟨m, [], []⟩

/-- A persistence operation emitted by a route. -/
inductive Op where
  | deleteByStudents (studentIds : List String)
  | insertRows (rows : List AsgRow)
deriving Repr, DecidableEq

/-- Apply one persistence operation to the persisted assignment rows. -/
def applyOp (rows : List AsgRow) : Op → List AsgRow
  | .deleteByStudents ids => rows.filter (fun r => !(ids.contains r.studentId))
  | .insertRows new => rows ++ new

/-- Apply a route's persistence operations in order. -/
def applyOps (rows : List AsgRow) (ops : List Op) : List AsgRow :=
  ops.foldl applyOp rows

/-- Response of the auto-assignment route. -/
inductive ARes where
  | badRequest
  | someStudentsNotFound
  | duplicateStudents
  | unassignedFail (count : Nat) (unassigned : List String) (partialAssignments : List Asg)
  | success (assignments : List Asg)
deriving Repr, DecidableEq

/-- Identity reported for an unassigned student: user name, falling back to
the student id (s.user?.name or s.id). -/
def nameOrId (s : Student) : String :=
  match s.name with
  | some n => if n == "" then s.id else n
  | none => s.id

/-- View of newly inserted placement rows as persisted rows: the insert
stores (studentId, row, column, benchPosition); the class id column of the
joined view is recovered through the student relation. -/
def toRows (db : List Student) (asgs : List Asg) : List AsgRow :=
  asgs.map (fun a =>
    { studentId := a.studentId,
      classId :=
        match db.find? (fun s => s.id == a.studentId) with
        | some s => s.classId
        | none => none,
      row := a.row, column := a.column, benchPosition := a.benchPosition })

/-- The position map the auto route solves against: all existing
assignments except those of the students being (re)assigned. -/
def autoStartMap (existing : List AsgRow) (uniqueStudentIds : List String) : PosMap :=
  (buildMap existing).filter (fun e => !(uniqueStudentIds.contains e.2.studentId))

/-- The auto-assignment route, from the point where the room configuration
and existing assignments are loaded: resolve and validate the student list,
prune the batch students' existing assignments from the index, run the
greedy solver, and either fail with the unassigned students (no persistence
operation) or replace the batch students' rows. -/
def autoAssignRoute (cfg : Config) (existing : List AsgRow) (db : List Student)
    (studentIds : List String) : ARes × List Op :=
  if studentIds.isEmpty then (.badRequest, [])
  else
    let students := resolveStudents db studentIds
    if students.length != studentIds.length then (.someStudentsNotFound, [])
    else
      let uniqueStudentIds := jsDedup studentIds
      if uniqueStudentIds.length != studentIds.length then (.duplicateStudents, [])
      else
        let st := solve cfg (autoStartMap existing uniqueStudentIds) students
        if st.unassigned.length > 0 then
          (.unassignedFail st.unassigned.length (st.unassigned.map nameOrId)
             st.assignments, [])
        else
          (.success st.assignments,
           [Op.deleteByStudents uniqueStudentIds] ++
             (if st.assignments.isEmpty then []
              else [Op.insertRows (toRows db st.assignments)]))

/-- One caller-supplied tuple of the manual-assignment request; the bench
position may be absent in the request body. -/
structure MTuple where
  studentId : String
  row : Int
  column : Int
  benchPosition : Option Int
deriving Repr, DecidableEq

/-- The benchPosition-or-1 default applied by the manual route (the JS
benchPosition or 1, where 0, null and undefined are falsy). -/
def benchOr1 : Option Int → Int
  | none => 1
  | some b => if b == 0 then 1 else b

/-- Structural validation pass of the manual route, scanning the tuples in
input order and failing fast: duplicate student, row or column out of
range, bench position out of range, duplicate target seat. -/
def structuralCheck (cfg : Config) :
    List MTuple → List String → List Key → Option MErr
  | [], _, _ => none
  | t :: rest, seenIds, seenPos =>
    if seenIds.contains t.studentId then some (.duplicateStudent t.studentId)
    else if t.row < 1 || t.row > cfg.rows || t.column < 1 || t.column > cfg.columns then
      some (.invalidPosition t.row t.column)
    else
      let benchPos := benchOr1 t.benchPosition
      if benchPos < 1 || benchPos > cfg.studentsPerBench then
        some (.invalidBenchPosition benchPos)
      else if seenPos.contains (t.row, t.column, benchPos) then
        some (.positionTaken t.row t.column benchPos)
      else structuralCheck cfg rest (seenIds ++ [t.studentId])
        (seenPos ++ [(t.row, t.column, benchPos)])

/-- Constraint pass of the manual route: for each tuple in input order,
look the student up, run the per-tuple constraint check against the current
position map, and on success record the tuple in the map (so later tuples
of the same batch see it). A tuple whose student is not in the resolved
list is skipped. -/
def constraintLoop (cfg : Config) (students : List Student) :
    PosMap → List MTuple → Option MErr
  | _, [] => none
  | m, t :: rest =>
    match students.find? (fun s => s.id == t.studentId) with
    | none => constraintLoop cfg students m rest
    | some student =>
      let benchPos := benchOr1 t.benchPosition
      match manualConstraintCheck cfg m t.row t.column benchPos student.classId with
      | some e => some e
      | none =>
        constraintLoop cfg students
          (pmSet m (t.row, t.column, benchPos) ⟨t.studentId, student.classId⟩) rest

/-- Response of the manual-assignment route. -/
inductive MRes where
  | err (e : MErr)
  | success
deriving Repr, DecidableEq

/-- The manual-assignment route, from the point where the room
configuration and existing assignments are loaded: structural validation,
student resolution, then the constraint pass against a position map seeded
with every existing assignment (none are pruned), and on success the
replace of the batch students' rows. -/
def manualAssignRoute (cfg : Config) (existing : List AsgRow) (db : List Student)
    (assignments : List MTuple) : MRes × List Op :=
  match structuralCheck cfg assignments [] [] with
  | some e => (.err e, [])
  | none =>
    let studentIdsArray := jsDedup (assignments.map (fun t => t.studentId))
    let students := resolveStudents db studentIdsArray
    if students.length != studentIdsArray.length then (.err .someStudentsNotFound, [])
    else
      match constraintLoop cfg students (buildMap existing) assignments with
      | some e => (.err e, [])
      | none =>
        (.success,
         [Op.deleteByStudents studentIdsArray,
          Op.insertRows (assignments.map (fun t =>
            { studentId := t.studentId,
              classId :=
                match students.find? (fun s => s.id == t.studentId) with
                | some s => s.classId
                | none => none,
              row := t.row, column := t.column,
              benchPosition := benchOr1 t.benchPosition }))])

/-- The seat key of a persisted assignment row. -/
def keyOf (r : AsgRow) : Key := (r.row, r.column, r.benchPosition)

/-- The mode-specific adjacency set of a seat key: with one student per
bench the four orthogonal neighbours at bench position 1; with two per
bench the other seat of the same bench and both seats of the neighbouring
columns. -/
def adjacentKeys (cfg : Config) (k : Key) : List Key :=
  if cfg.studentsPerBench == 1 then
    [(k.1, k.2.1 - 1, 1), (k.1, k.2.1 + 1, 1),
     (k.1 - 1, k.2.1, 1), (k.1 + 1, k.2.1, 1)]
  else
    [(k.1, k.2.1, if k.2.2 == 1 then 2 else 1),
     (k.1, k.2.1 - 1, 1), (k.1, k.2.1 - 1, 2),
     (k.1, k.2.1 + 1, 1), (k.1, k.2.1 + 1, 2)]

/-- Safety invariant of an assignment set: no seat key is occupied twice,
and no two occupants on adjacent seats (per the mode-specific rule) have
equal non-null class ids. -/
def seatingInvariant (cfg : Config) (rows : List AsgRow) : Prop :=
  List.Pairwise (fun r1 r2 => keyOf r1 ≠ keyOf r2) rows ∧
  ∀ r1 ∈ rows, ∀ r2 ∈ rows, keyOf r2 ∈ adjacentKeys cfg (keyOf r1) →
    ¬(truthy r1.classId = true ∧ r1.classId = r2.classId)

/-- A coordinate is in range for a configuration: the range test the
manual route applies to every tuple (row within rows, column within
columns, bench position within studentsPerBench, all from 1). -/
def inRange (cfg : Config) (r c b : Int) : Prop :=
  1 ≤ r ∧ r ≤ cfg.rows ∧ 1 ≤ c ∧ c ≤ cfg.columns ∧ 1 ≤ b ∧ b ≤ cfg.studentsPerBench

instance (cfg : Config) (r c b : Int) : Decidable (inRange cfg r c b) := by
  unfold inRange
  infer_instance

/-- Validation errors of the room-allocation creation handler. -/
inductive CreateErr where
  | missingFields
  | invalidDimensions
  | capacityExceeded
  | someClassesNotFound
deriving Repr, DecidableEq

/-- A JSON value as far as the studentsPerBench field is concerned; the
handler compares it to the number 2 with strict equality. -/
inductive JSVal where
  | num (n : Int)
  | str (s : String)
  | bool (b : Bool)
  | null
  | undef
deriving Repr, DecidableEq

/-- The bench-size coercion of the creation handler: exactly the number 2
stays 2, every other value becomes 1. -/
def spbValue : JSVal → Int
  | .num 2 => 2
  | _ => 1

/-- Whitespace trimming of the room name (roomName.trim), modelled over the
character list. -/
def trimName (s : String) : String :=
  ⟨List.reverse (List.dropWhile Char.isWhitespace
    (List.reverse (List.dropWhile Char.isWhitespace s.data)))⟩

/-- The room-allocation creation handler: required-field and dimension
validation, bench-size coercion, the 200-seat capacity ceiling, optional
class-list validation, then the stored configuration. -/
def createRoomAllocation (roomName : String) (rows columns : Int)
    (studentsPerBench : JSVal) (classIds : Option (List String))
    (classDb : List String) : Except CreateErr Config :=
  if roomName == "" || rows == 0 || columns == 0 then .error .missingFields
  else if rows < 1 || columns < 1 then .error .invalidDimensions
  else
    let studentsPerBenchValue := spbValue studentsPerBench
    let totalCapacity := rows * columns * studentsPerBenchValue
    if totalCapacity > 200 then .error .capacityExceeded
    else
      match classIds with
      | some l =>
        if l.length > 0 &&
            (classDb.filter (fun c => l.contains c)).length != l.length then
          .error .someClassesNotFound
        else
          .ok ⟨trimName roomName, rows, columns, studentsPerBenchValue⟩
      | none => .ok ⟨trimName roomName, rows, columns, studentsPerBenchValue⟩

deriving instance DecidableEq for Except

/-! ## Theorems -/

/-- The bench-size coercion written as a single conditional. -/
lemma spbValue_ite (v : JSVal) : spbValue v = if v = JSVal.num 2 then 2 else 1 := by
  unfold spbValue
  split
  · simp
  · rename_i hne
    rcases v with n | s | b | _ | _ <;> simp_all

/-- C5: on a 1-row-by-3-column grid with one student per bench and an empty
existing index, auto-assigning S1 (class X), S2 (class X), S3 (class Y) in
that input order succeeds with exactly S1 at (1,1,1), S2 at (1,3,1) and S3
at (1,2,1). -/
theorem scenario_a_auto_assignment :
    (autoAssignRoute ⟨"", 1, 3, 1⟩ []
        [⟨"S1", none, some "X"⟩, ⟨"S2", none, some "X"⟩, ⟨"S3", none, some "Y"⟩]
        ["S1", "S2", "S3"]).1 =
      ARes.success [⟨"S1", 1, 1, 1⟩, ⟨"S2", 1, 3, 1⟩, ⟨"S3", 1, 2, 1⟩] := by
  decide

/-- C1: the claim is violated by the code. On a 1-by-3 grid with one
student per bench, the only existing assignment is batch student B (class
X) at (1,1,1), and the batch reassigns B to (1,2,1). The claim says the
constraint index excludes B's own existing assignment, so the batch is
accepted (second conjunct: the constraint check against the pruned index
passes); the code seeds the index with every existing assignment, so B
conflicts with its own old seat and the batch is rejected (first
conjunct). -/
theorem manual_index_keeps_batch_students_old_rows :
    manualAssignRoute ⟨"", 1, 3, 1⟩ [⟨"B", some "X", 1, 1, 1⟩]
        [⟨"B", none, some "X"⟩] [⟨"B", 1, 2, some 1⟩] =
      (MRes.err MErr.adjacentSameClass1, []) ∧
    manualConstraintCheck ⟨"", 1, 3, 1⟩
        (buildMap ((List.filter (fun r => !(["B"].contains r.studentId))
          [⟨"B", some "X", 1, 1, 1⟩]))) 1 2 1 (some "X") = none := by
  constructor
  · decide
  · decide

/-- C2: the claim is violated by the code. On a 1-by-2 grid with one
student per bench, seat (1,1,1) is occupied by the persisted assignment of
non-batch student E (class X), yet the manual batch that puts batch student
B (class Y) on that very seat passes the constraint check, succeeds, and
issues persistence writes: the manual path has no occupied-coordinate test
at all. -/
theorem manual_path_skips_occupied_seat_test :
    pmHas (buildMap [⟨"E", some "X", 1, 1, 1⟩]) (1, 1, 1) = true ∧
    (manualAssignRoute ⟨"", 1, 2, 1⟩ [⟨"E", some "X", 1, 1, 1⟩]
        [⟨"B", none, some "Y"⟩] [⟨"B", 1, 1, some 1⟩]).1 = MRes.success ∧
    (manualAssignRoute ⟨"", 1, 2, 1⟩ [⟨"E", some "X", 1, 1, 1⟩]
        [⟨"B", none, some "Y"⟩] [⟨"B", 1, 1, some 1⟩]).2 ≠ [] := by
  refine ⟨by decide, by decide, by decide⟩

/-- C3: the claim is violated by the code. Starting from a persisted set
that satisfies the safety invariant (one student, E of class X, at
(1,1,1)), the manual batch assigning C-batch student B (class Y) to the
same seat succeeds, and the persisted set after applying the route's
operations holds two occupants on seat (1,1,1), breaking the invariant. -/
theorem manual_success_can_break_seating_invariant :
    seatingInvariant ⟨"", 1, 2, 1⟩ [⟨"E", some "X", 1, 1, 1⟩] ∧
    (manualAssignRoute ⟨"", 1, 2, 1⟩ [⟨"E", some "X", 1, 1, 1⟩]
        [⟨"B2", none, some "Y"⟩] [⟨"B2", 1, 1, some 1⟩]).1 = MRes.success ∧
    ¬ seatingInvariant ⟨"", 1, 2, 1⟩
        (applyOps [⟨"E", some "X", 1, 1, 1⟩]
          (manualAssignRoute ⟨"", 1, 2, 1⟩ [⟨"E", some "X", 1, 1, 1⟩]
            [⟨"B2", none, some "Y"⟩] [⟨"B2", 1, 1, some 1⟩]).2) := by
  refine ⟨⟨by decide, by decide⟩, by decide, ?_⟩
  intro h
  have := h.1
  revert this
  decide

/-- C4: whenever the auto-assignment route answers with the
unassigned-students failure, it emits no persistence operation (so the
persisted assignment set is unchanged), and the failure payload reports the
unassigned students' count and identities together with the placements the
solver computed before failing (which is a non-empty unassigned list). -/
theorem auto_unassigned_failure_is_atomic :
    ∀ (cfg : Config) (existing : List AsgRow) (db : List Student)
      (studentIds : List String) (c : Nat) (ns : List String) (pa : List Asg)
      (ops : List Op),
      autoAssignRoute cfg existing db studentIds = (ARes.unassignedFail c ns pa, ops) →
      ops = [] ∧ applyOps existing ops = existing ∧
      (let st := solve cfg (autoStartMap existing (jsDedup studentIds))
          (resolveStudents db studentIds)
       st.unassigned ≠ [] ∧ c = st.unassigned.length ∧
       ns = st.unassigned.map nameOrId ∧ pa = st.assignments) := by
  intro cfg existing db studentIds c ns pa ops h
  simp only [autoAssignRoute] at h
  split at h
  · injection h with h1 h2
    exact ARes.noConfusion h1
  · split at h
    · injection h with h1 h2
      exact ARes.noConfusion h1
    · split at h
      · injection h with h1 h2
        exact ARes.noConfusion h1
      · split at h
        · rename_i h4
          injection h with h1 h2
          injection h1 with hc hn hp
          subst h2
          exact ⟨rfl, rfl, List.ne_nil_of_length_pos h4, hc.symm, hn.symm, hp.symm⟩
        · injection h with h1 h2
          exact ARes.noConfusion h1

/-- C4 witness: two same-class students on a single-seat grid; the second
cannot be placed, the route fails with count 1, identity S2 and the partial
placement of S1, and issues no persistence operation. -/
theorem auto_unassigned_failure_is_atomic_witness :
    ([] : List Op) = [] ∧ applyOps ([] : List AsgRow) [] = [] ∧
    (let st := solve ⟨"", 1, 1, 1⟩ (autoStartMap [] (jsDedup ["S1", "S2"]))
        (resolveStudents [⟨"S1", none, some "X"⟩, ⟨"S2", none, some "X"⟩]
          ["S1", "S2"])
     st.unassigned ≠ [] ∧ 1 = st.unassigned.length ∧
     ["S2"] = st.unassigned.map nameOrId ∧ [⟨"S1", 1, 1, 1⟩] = st.assignments) :=
  auto_unassigned_failure_is_atomic ⟨"", 1, 1, 1⟩ []
    [⟨"S1", none, some "X"⟩, ⟨"S2", none, some "X"⟩] ["S1", "S2"]
    1 ["S2"] [⟨"S1", 1, 1, 1⟩] [] (by decide)

/-- Lookup in a one-entry map. -/
lemma pmFind_singleton (k kp : Key) (v : Occ) :
    pmFind [(k, v)] kp = if k = kp then some v else none := by
  by_cases h : k = kp
  · simp [pmFind, List.find?, h]
  · have hb : (k == kp) = false := beq_eq_false_iff_ne.mpr h
    simp [pmFind, List.find?, hb, h]

/-- C6: with two students per bench, seats on a different row are never
consulted. First conjunct pair: on both the auto path
(isPositionAvailable) and the manual path (manualConstraintCheck), the
outcome for a seat in row r only depends on the occupants of row r, so a
same-class occupant at (row-1, column) or (row+1, column) can never make a
coordinate unavailable; only the same bench and the two neighbouring
columns of the same row are consulted. Second conjunct group: with the only
occupant of the whole room sitting directly in front of or behind the
target seat (any class, any bench position), both paths accept the seat
outright. -/
theorem two_per_bench_front_back_not_adjacent :
    ∀ (cfg : Config) (m mp : PosMap) (r c b : Int) (cls cls2 : Option String)
      (sid : String) (p : Int),
      cfg.studentsPerBench = 2 →
      (∀ cp bp, pmFind m (r, cp, bp) = pmFind mp (r, cp, bp)) →
      (isPositionAvailable cfg m r c b cls = isPositionAvailable cfg mp r c b cls ∧
       manualConstraintCheck cfg m r c b cls = manualConstraintCheck cfg mp r c b cls) ∧
      (isPositionAvailable cfg [((r - 1, c, p), ⟨sid, cls2⟩)] r c b cls = true ∧
       isPositionAvailable cfg [((r + 1, c, p), ⟨sid, cls2⟩)] r c b cls = true ∧
       manualConstraintCheck cfg [((r - 1, c, p), ⟨sid, cls2⟩)] r c b cls = none ∧
       manualConstraintCheck cfg [((r + 1, c, p), ⟨sid, cls2⟩)] r c b cls = none) := by
  intro cfg m mp r c b cls cls2 sid p hspb hagree
  have h21 : (cfg.studentsPerBench == 1) = false := by
    rw [hspb]
    decide
  have hocc : ∀ cp bp, occConflict m (r, cp, bp) cls = occConflict mp (r, cp, bp) cls := by
    intro cp bp
    unfold occConflict
    rw [hagree]
  have hhas : pmHas m (r, c, b) = pmHas mp (r, c, b) := by
    unfold pmHas
    rw [hagree]
  have hf1 : ∀ cp bp, pmFind [((r - 1, c, p), (⟨sid, cls2⟩ : Occ))] (r, cp, bp) = none := by
    intro cp bp
    rw [pmFind_singleton, if_neg]
    simp only [Prod.mk.injEq, not_and]
    intro h1
    omega
  have hf2 : ∀ cp bp, pmFind [((r + 1, c, p), (⟨sid, cls2⟩ : Occ))] (r, cp, bp) = none := by
    intro cp bp
    rw [pmFind_singleton, if_neg]
    simp only [Prod.mk.injEq, not_and]
    intro h1
    omega
  refine ⟨⟨?_, ?_⟩, ?_, ?_, ?_, ?_⟩
  · simp [isPositionAvailable, h21, hhas, hocc]
  · simp [manualConstraintCheck, h21, hocc]
  · simp [isPositionAvailable, h21, pmHas, occConflict, hf1]
  · simp [isPositionAvailable, h21, pmHas, occConflict, hf2]
  · simp [manualConstraintCheck, h21, occConflict, hf1]
  · simp [manualConstraintCheck, h21, occConflict, hf2]

/-- C6 witness: on a 2-by-2 two-per-bench room, the seat (1,1,2) is
available although the sole occupant, of the same class, sits at the
front/back neighbour position (row 0 relative to the grid scan, the seat
directly across the aisle gap). -/
theorem two_per_bench_front_back_not_adjacent_witness :
    isPositionAvailable ⟨"", 2, 2, 2⟩ [(((1 - 1 : Int), 1, 1), ⟨"F", some "x"⟩)]
      1 1 2 (some "x") = true :=
  (two_per_bench_front_back_not_adjacent ⟨"", 2, 2, 2⟩ [] [] 1 1 2 (some "x")
    (some "x") "F" 1 rfl (fun _ _ => rfl)).2.1

/-- Membership in a one-entry map. -/
lemma pmHas_singleton (k kp : Key) (v : Occ) :
    pmHas [(k, v)] kp = decide (k = kp) := by
  by_cases h : k = kp <;> simp [pmHas, pmFind_singleton, h]

/-- Conflict against a one-entry map reduces to key equality plus the
same-class test. -/
lemma occConflict_singleton (k kp : Key) (v : Occ) (cls : Option String) :
    occConflict [(k, v)] kp cls = (decide (k = kp) && sameClassConflict v cls) := by
  by_cases h : k = kp <;> simp [occConflict, pmFind_singleton, h]

/-- C7: adjacency is symmetric in both bench-size modes. For all in-range
coordinates A and B and every truthy (non-null, non-empty) class id, a sole
occupant of that class at B blocks a class-mate from being placed at A
exactly when a sole occupant at A blocks a class-mate from being placed at
B, where blocking is the availability predicate shared by both paths
returning false. -/
theorem adjacency_symmetric :
    ∀ (cfg : Config) (rA cA bA rB cB bB : Int) (sA sB : String) (cls : Option String),
      (cfg.studentsPerBench = 1 ∨ cfg.studentsPerBench = 2) →
      truthy cls = true →
      inRange cfg rA cA bA → inRange cfg rB cB bB →
      (isPositionAvailable cfg [((rB, cB, bB), ⟨sB, cls⟩)] rA cA bA cls = false ↔
       isPositionAvailable cfg [((rA, cA, bA), ⟨sA, cls⟩)] rB cB bB cls = false) := by
  intro cfg rA cA bA rB cB bB sA sB cls hspb htr hA hB
  unfold inRange at hA hB
  obtain hsb | hsb := hspb
  · have h1 : (cfg.studentsPerBench == 1) = true := by
      rw [hsb]
      decide
    rw [hsb] at hA hB
    have hbA : bA = 1 := by omega
    have hbB : bB = 1 := by omega
    subst hbA hbB
    simp [isPositionAvailable, h1, pmHas_singleton, occConflict_singleton,
      sameClassConflict, htr, Prod.mk.injEq]
    omega
  · have h1 : (cfg.studentsPerBench == 1) = false := by
      rw [hsb]
      decide
    rw [hsb] at hA hB
    have hbA : bA = 1 ∨ bA = 2 := by omega
    have hbB : bB = 1 ∨ bB = 2 := by omega
    obtain h | h := hbA <;> obtain hp | hp := hbB <;> subst h hp <;>
      (simp [isPositionAvailable, h1, pmHas_singleton, occConflict_singleton,
        sameClassConflict, htr, Prod.mk.injEq]
       omega)

/-- C7 witness: on a 2-by-2 single-bench room, the occupant of (1,2,1)
blocks a class-mate at (1,1,1) exactly as the occupant of (1,1,1) blocks a
class-mate at (1,2,1). -/
theorem adjacency_symmetric_witness :
    (isPositionAvailable ⟨"", 2, 2, 1⟩ [(((1 : Int), 2, 1), ⟨"b", some "x"⟩)]
        1 1 1 (some "x") = false ↔
     isPositionAvailable ⟨"", 2, 2, 1⟩ [(((1 : Int), 1, 1), ⟨"a", some "x"⟩)]
        1 2 1 (some "x") = false) :=
  adjacency_symmetric ⟨"", 2, 2, 1⟩ 1 1 1 1 2 1 "a" "b" (some "x")
    (Or.inl rfl) (by decide) (by decide) (by decide)

/-- C8: whenever room creation succeeds, the stored configuration satisfies
the 200-seat capacity ceiling (rows times columns times studentsPerBench at
most 200), and the Scenario D request (20 rows, 10 columns, 2 per bench,
capacity 400) is rejected at configuration time with the capacity error,
before anything is persisted. -/
theorem capacity_ceiling_enforced :
    ∀ (roomName : String) (rows columns : Int) (spb : JSVal)
      (classIds : Option (List String)) (classDb : List String) (cfg : Config),
      createRoomAllocation roomName rows columns spb classIds classDb = .ok cfg →
      cfg.rows * cfg.columns * cfg.studentsPerBench ≤ 200 ∧
      createRoomAllocation "Exam Hall" 20 10 (.num 2) none [] =
        .error .capacityExceeded := by
  intro roomName rows columns spb classIds classDb cfg h
  refine ⟨?_, by decide⟩
  simp only [createRoomAllocation] at h
  repeat' split at h
  any_goals exact Except.noConfusion h
  all_goals
    simp only [Except.ok.injEq] at h
    subst h
    dsimp only
    omega

/-- C8 witness: a concrete accepted request (2 by 3, two per bench) whose
stored configuration satisfies the ceiling. -/
theorem capacity_ceiling_enforced_witness :
    (⟨"R", 2, 3, 2⟩ : Config).rows * (⟨"R", 2, 3, 2⟩ : Config).columns *
        (⟨"R", 2, 3, 2⟩ : Config).studentsPerBench ≤ 200 ∧
    createRoomAllocation "Exam Hall" 20 10 (.num 2) none [] =
      .error .capacityExceeded :=
  capacity_ceiling_enforced "R" 2 3 (JSVal.num 2) none [] ⟨"R", 2, 3, 2⟩ (by decide)

/-- C9: whenever room creation succeeds, the stored studentsPerBench is 2
exactly when the request value is the number 2, and is 1 in every other
case; in particular it is always 1 or 2. -/
theorem bench_size_coerced_to_one_or_two :
    ∀ (roomName : String) (rows columns : Int) (spb : JSVal)
      (classIds : Option (List String)) (classDb : List String) (cfg : Config),
      createRoomAllocation roomName rows columns spb classIds classDb = .ok cfg →
      (cfg.studentsPerBench = 2 ↔ spb = JSVal.num 2) ∧
      (cfg.studentsPerBench = 1 ∨ cfg.studentsPerBench = 2) := by
  intro roomName rows columns spb classIds classDb cfg h
  simp only [createRoomAllocation] at h
  repeat' split at h
  any_goals exact Except.noConfusion h
  all_goals
    simp only [Except.ok.injEq] at h
    subst h
    dsimp only
    rw [spbValue_ite]
    by_cases hv : spb = JSVal.num 2 <;> simp [hv]

/-- C9 witness: the out-of-range value 3 is accepted and coerced to bench
size 1, not rejected. -/
theorem bench_size_coerced_to_one_or_two_witness :
    ((⟨"R", 2, 3, 1⟩ : Config).studentsPerBench = 2 ↔ JSVal.num 3 = JSVal.num 2) ∧
    ((⟨"R", 2, 3, 1⟩ : Config).studentsPerBench = 1 ∨
      (⟨"R", 2, 3, 1⟩ : Config).studentsPerBench = 2) :=
  bench_size_coerced_to_one_or_two "R" 2 3 (JSVal.num 3) none [] ⟨"R", 2, 3, 1⟩
    (by decide)

/-- Deduplication never lengthens a list. -/
lemma jsDedupAux_length_le (l : List String) :
    ∀ seen, (jsDedupAux l seen).length ≤ l.length := by
  induction l with
  | nil =>
    intro seen
    simp [jsDedupAux]
  | cons x xs ih =>
    intro seen
    simp only [jsDedupAux]
    split
    · exact Nat.le_succ_of_le (ih seen)
    · simpa using Nat.succ_le_succ (ih (seen ++ [x]))

/-- Deduplication preserves the length only on lists that are duplicate
free and disjoint from the seen accumulator. -/
lemma jsDedupAux_length_eq (l : List String) :
    ∀ seen, (jsDedupAux l seen).length = l.length → l.Nodup ∧ ∀ a ∈ l, a ∉ seen := by
  induction l with
  | nil =>
    intro seen _
    simp
  | cons x xs ih =>
    intro seen h
    simp only [jsDedupAux] at h
    split at h
    · rename_i hx
      have := jsDedupAux_length_le xs seen
      simp at h
      omega
    · rename_i hx
      simp only [List.length_cons, Nat.add_right_cancel_iff] at h
      obtain ⟨hnd, hall⟩ := ih (seen ++ [x]) h
      have hxseen : x ∉ seen := by
        intro hc
        exact hx (List.elem_eq_true_of_mem hc)
      have hxxs : x ∉ xs := by
        intro hc
        exact (hall x hc) (by simp)
      refine ⟨List.nodup_cons.mpr ⟨hxxs, hnd⟩, ?_⟩
      intro a ha
      rcases List.mem_cons.mp ha with rfl | ha2
      · exact hxseen
      · intro hc
        exact (hall a ha2) (by simp [hc])

/-- Deduplication keeps exactly the elements of the input. -/
lemma jsDedup_mem (l : List String) (a : String) : a ∈ jsDedup l ↔ a ∈ l := by
  unfold jsDedup
  have haux : ∀ (l2 : List String) (seen : List String),
      a ∈ jsDedupAux l2 seen ↔ a ∈ l2 ∧ a ∉ seen := by
    intro l2
    induction l2 with
    | nil =>
      intro seen
      simp [jsDedupAux]
    | cons x xs ih =>
      intro seen
      simp only [jsDedupAux]
      split
      · rename_i hx
        rw [ih]
        have hxs : x ∈ seen := List.elem_iff.mp hx
        constructor
        · rintro ⟨h1, h2⟩
          exact ⟨List.mem_cons_of_mem x h1, h2⟩
        · rintro ⟨h1, h2⟩
          rcases List.mem_cons.mp h1 with rfl | h3
          · exact absurd hxs h2
          · exact ⟨h3, h2⟩
      · rename_i hx
        simp only [List.mem_cons, ih]
        constructor
        · rintro (rfl | ⟨h1, h2⟩)
          · refine ⟨Or.inl rfl, ?_⟩
            intro hc
            exact hx (List.elem_eq_true_of_mem hc)
          · constructor
            · exact Or.inr h1
            · intro hc
              exact h2 (by simp [hc])
        · rintro ⟨h1, h2⟩
          by_cases hax : a = x
          · exact Or.inl hax
          · rcases h1 with rfl | h1
            · exact Or.inl rfl
            · refine Or.inr ⟨h1, ?_⟩
              intro hc
              rcases List.mem_append.mp hc with hc | hc
              · exact h2 hc
              · simp at hc
                exact hax hc
  rw [haux l []]
  simp

/-- When the student table has no duplicate ids, resolution returns at most
one row per distinct requested id. -/
lemma resolveStudents_length_le (db : List Student) (ids : List String)
    (hdb : (db.map Student.id).Nodup) :
    (resolveStudents db ids).length ≤ (jsDedup ids).length := by
  have hsub : List.Sublist ((resolveStudents db ids).map Student.id)
      (db.map Student.id) :=
    List.Sublist.map Student.id (List.filter_sublist db)
  have hnd : ((resolveStudents db ids).map Student.id).Nodup := hdb.sublist hsub
  have hss : (resolveStudents db ids).map Student.id ⊆ jsDedup ids := by
    intro a ha
    rw [jsDedup_mem]
    obtain ⟨s, hs, rfl⟩ := List.mem_map.mp ha
    have := List.of_mem_filter hs
    exact List.elem_iff.mp this
  calc (resolveStudents db ids).length
      = ((resolveStudents db ids).map Student.id).length := (List.length_map _ _).symm
    _ ≤ (jsDedup ids).length := (List.subperm_of_subset hnd hss).length_le

/-- C10: in the auto-assignment route, when the student table has no
duplicate ids, every request whose studentIds list contains a duplicate is
rejected by the identity check (the resolved row count falls short of the
list length, answering someStudentsNotFound), and the explicit duplicate
check is unreachable: no input ever produces the duplicateStudents
response. -/
theorem duplicate_ids_hit_identity_check_first :
    ∀ (cfg : Config) (existing : List AsgRow) (db : List Student)
      (studentIds : List String),
      (db.map Student.id).Nodup →
      (¬ studentIds.Nodup →
        (autoAssignRoute cfg existing db studentIds).1 = ARes.someStudentsNotFound) ∧
      (autoAssignRoute cfg existing db studentIds).1 ≠ ARes.duplicateStudents := by
  intro cfg existing db ids hdb
  constructor
  · intro hdup
    have hne : ids.isEmpty = false := by
      cases ids with
      | nil => exact absurd List.nodup_nil hdup
      | cons x xs => rfl
    have hlt : (jsDedup ids).length < ids.length := by
      have hle := jsDedupAux_length_le ids []
      rcases Nat.lt_or_ge (jsDedup ids).length ids.length with h | h
      · exact h
      · have heq : (jsDedupAux ids []).length = ids.length := Nat.le_antisymm hle h
        exact absurd (jsDedupAux_length_eq ids [] heq).1 hdup
    have hres := resolveStudents_length_le db ids hdb
    have hne2 : ((resolveStudents db ids).length != ids.length) = true := by
      simp only [bne_iff_ne, ne_eq]
      omega
    simp [autoAssignRoute, hne, hne2]
  · intro hcontra
    simp only [autoAssignRoute] at hcontra
    split at hcontra
    · exact ARes.noConfusion hcontra
    · split at hcontra
      · exact ARes.noConfusion hcontra
      · split at hcontra
        · rename_i hlen hdd
          have heq : (resolveStudents db ids).length = ids.length := by
            simpa [bne_iff_ne] using hlen
          have hres := resolveStudents_length_le db ids hdb
          have hle := jsDedupAux_length_le ids []
          have : (jsDedup ids).length = ids.length := by
            unfold jsDedup at hres ⊢
            omega
          simp [bne_iff_ne, this] at hdd
        · split at hcontra
          · exact ARes.noConfusion hcontra
          · exact ARes.noConfusion hcontra

/-- C10 witness: the duplicated list consisting of student A twice, against
a table holding A once, is rejected with someStudentsNotFound. -/
theorem duplicate_ids_hit_identity_check_first_witness :
    (autoAssignRoute ⟨"", 1, 1, 1⟩ [] [⟨"A", none, none⟩] ["A", "A"]).1 =
      ARes.someStudentsNotFound :=
  (duplicate_ids_hit_identity_check_first ⟨"", 1, 1, 1⟩ [] [⟨"A", none, none⟩]
    ["A", "A"] (by decide)).1 (by decide)

end Seating
